import Mathlib

/-
Verification of the rca-api log-report normalization, prompt-building,
issue-correlation and usage-event components.

The raw input of the normalizer (`src/rcav2/errors.py`) is a parsed JSON
value; it is embedded as the inductive `Json` below.  Conventions of the
embedding, used throughout:
  * instants (Python `datetime`) are modelled as integers (epoch time);
    the raw `timestamp` field is a JSON number or null.  `datetime.max`,
    the greatest value of the bounded `datetime` type, is modelled as the
    added top element `none` of `Option Int`.
  * a Python exception escaping a function is modelled as `none` /
    `.error`; values that pydantic model validation would reject
    (a non-string resolved source or target, an ill-typed anomaly field)
    are folded into the same failure outcome, since in the source the
    enclosing call raises either way.
  * Python's `sorted` / `list.sort` with a key function is a stable sort
    ordering by the key; it is modelled by `List.insertionSort` (also
    stable), which is extensionally the unique stable sort for the total
    preorder induced by the key.
  * `str()` / f-string conversion of raw values is modelled by `pyStr`;
    its `repr` of strings covers the common escapes (backslash, quote,
    newline, carriage return, tab) and both quote choices.
-/

inductive Json where
  | null : Json
  | bool : Bool → Json
  | num : Int → Json
  | str : String → Json
  | arr : List Json → Json
  | obj : List (String × Json) → Json

/-- Lookup of a key in a parsed JSON object; `json.loads` keeps the last
occurrence of a duplicated key, so later bindings win. -/
def lookupLast : List (String × Json) → String → Option Json
  | [], _ => none
  | (k, v) :: rest, key =>
    match lookupLast rest key with
    | some w => some w
    | none => if k = key then some v else none

/-- `d[k]` / mapping-pattern lookup: `none` models both a missing key
(`KeyError`) and indexing a non-mapping (`TypeError`). -/
def jget : Json → String → Option Json
  | .obj kvs, k => lookupLast kvs k
  | _, _ => none

/-- Python iteration over a raw value: lists yield their elements, strings
their characters (as one-character strings), mappings their keys; other
values are not iterable (`TypeError`). -/
def asIterable : Json → Option (List Json)
  | .arr l => some l
  | .str s => some (s.data.map fun c => .str (String.mk [c]))
  | .obj kvs => some (kvs.map fun kv => .str kv.1)
  | _ => none

/-- `list(map(f, xs))` over a fallible `f`: the first failure aborts. -/
def mapOption (f : α → Option β) : List α → Option (List β)
  | [] => some []
  | a :: l =>
    match f a, mapOption f l with
    | some b, some bl => some (b :: bl)
    | _, _ => none

/-- One escaped character of a Python string repr with quote code `q`. -/
def pyCharEsc (q : Nat) (c : Char) : String :=
  if c.toNat = 92 then "\\\\"
  else if c.toNat = q then "\\" ++ String.mk [c]
  else if c.toNat = 10 then "\\n"
  else if c.toNat = 13 then "\\r"
  else if c.toNat = 9 then "\\t"
  else String.mk [c]

/-- Body of a Python string repr with quote code `q`. -/
def pyEscape (q : Nat) (s : String) : String :=
  String.join (s.data.map (pyCharEsc q))

/-- Python `repr` of a string: single quotes, or double quotes when the
string contains a single quote but no double quote. -/
def pyStrRepr (s : String) : String :=
  if s.data.any (fun c => c.toNat = 39) && !(s.data.any fun c => c.toNat = 34) then
    String.mk [Char.ofNat 34] ++ pyEscape 34 s ++ String.mk [Char.ofNat 34]
  else
    String.mk [Char.ofNat 39] ++ pyEscape 39 s ++ String.mk [Char.ofNat 39]

mutual

/-- Python `repr` of a parsed JSON value. -/
def pyRepr : Json → String
  | .null => "None"
  | .bool true => "True"
  | .bool false => "False"
  | .num n => toString n
  | .str s => pyStrRepr s
  | .arr l => "[" ++ String.intercalate ", " (pyReprList l) ++ "]"
  | .obj kvs => "\x7b" ++ String.intercalate ", " (pyReprKVs kvs) ++ "\x7d"

/-- `repr` of the elements of a list value. -/
def pyReprList : List Json → List String
  | [] => []
  | j :: js => pyRepr j :: pyReprList js

/-- `repr` of the entries of a dict value. -/
def pyReprKVs : List (String × Json) → List String
  | [] => []
  | (k, v) :: kvs => (pyStrRepr k ++ ": " ++ pyRepr v) :: pyReprKVs kvs

end

/-- Python `str()` as used by f-string interpolation: a string is inserted
verbatim, every other value through its repr. -/
def pyStr : Json → String
  | .str s => s
  | j => pyRepr j

/-- Python string slice `s[n:]` (by code points, negative offsets counted
from the end, out-of-range offsets clamped). -/
def pySliceStr (s : String) (n : Int) : String :=
  if 0 ≤ n then String.mk (s.data.drop n.toNat)
  else String.mk (s.data.drop (s.data.length - n.natAbs))

/-- `path[pos:]` on raw values: defined when `path` is a string and `pos`
an integer (Python `bool` being an `int` subtype counts); every other
combination raises `TypeError`. -/
def pySliceJson (path : Json) (pos : Json) : Option String :=
  match path, pos with
  | .str s, .num n => some (pySliceStr s n)
  | .str s, .bool b => some (pySliceStr s (if b then 1 else 0))
  | _, _ => none

/- ### The data model of src/rcav2/errors.py -/

structure Error where
  before : List String
  line : String
  pos : Int
  after : List String
  timestamp : Option Int
  deriving DecidableEq, Repr

structure LogFile where
  source : String
  errors : List Error
  deriving DecidableEq, Repr

structure Report where
  target : String
  logfiles : List LogFile
  deriving DecidableEq, Repr

/- ### Source / target resolution (errors.py lines 32-57) -/

/-- The pattern `{"RawFile": {"Remote": [pos, path]}}`: a mapping holding
key `RawFile`, whose value holds key `Remote`, whose value is a sequence
of exactly two elements (string values are not sequences for Python
match patterns). -/
def getShape1 (source : Json) : Option (Json × Json) :=
  match jget source "RawFile" with
  | some inner =>
    match jget inner "Remote" with
    | some (.arr [p, q]) => some (p, q)
    | _ => none
  | none => none

/-- The pattern `{"TarFile": [{"Remote": [pos, _]}, _, path]}`. -/
def getShape2 (source : Json) : Option (Json × Json) :=
  match jget source "TarFile" with
  | some (.arr [first, _, path]) =>
    match jget first "Remote" with
    | some (.arr [p, _]) => some (p, path)
    | _ => none
  | _ => none

/-- `read_source` of errors.py: the two remote shapes are trimmed with
`path[pos:]`; any value matching neither pattern degrades to the
placeholder string. -/
def read_source (source : Json) : Option String :=
  match getShape1 source with
  | some (pos, path) => pySliceJson path pos
  | none =>
    match getShape2 source with
    | some (pos, path) => pySliceJson path pos
    | none => some ("Unknown source: " ++ pyStr source)

/-- `read_target` of errors.py: a mapping with key `Zuul` commits to the
first case and reads `build["job_name"]` (raising when it is absent; a
non-string job name fails the later `Report` validation and is folded
into the same failure); any other value degrades to the placeholder. -/
def read_target (target : Json) : Option String :=
  match jget target "Zuul" with
  | some build =>
    match jget build "job_name" with
    | some (.str s) => some s
    | _ => none
  | none => some ("Unknown target: " ++ pyStr target)

/- ### Record normalization (errors.py lines 60-74) -/

/-- pydantic `list[str]` validation of a raw value. -/
def asStrList : Json → Option (List String)
  | .arr l => mapOption (fun x => match x with | .str s => some s | _ => none) l
  | _ => none

/-- pydantic `datetime | None` validation: null becomes `none`, a number
an instant; other shapes are rejected (RFC3339 strings are abstracted as
integer instants in this embedding, see the header note). -/
def asTimestamp : Json → Option (Option Int)
  | .null => some none
  | .num n => some (some n)
  | _ => none

/-- `read_error` of errors.py: every field of the anomaly record is
required; a missing key raises and an ill-typed field fails validation. -/
def read_error (anomaly : Json) : Option Error :=
  match jget anomaly "before", jget anomaly "anomaly", jget anomaly "after" with
  | some bf, some an, some af =>
    match asStrList bf, asStrList af, jget an "line", jget an "pos", jget an "timestamp" with
    | some before, some after, some (.str line), some (.num pos), some tsj =>
      (asTimestamp tsj).map fun ts => ⟨before, line, pos, after, ts⟩
    | _, _, _, _, _ => none
  | _, _, _ => none

/-- `read_logfile` of errors.py. -/
def read_logfile (log_report : Json) : Option LogFile :=
  match jget log_report "source", jget log_report "anomalies" with
  | some src, some ans =>
    match read_source src, asIterable ans with
    | some s, some l => (mapOption read_error l).map fun errs => ⟨s, errs⟩
    | _, _ => none
  | _, _ => none

/-- `list(map(read_logfile, report["log_reports"]))` of errors.py line 89. -/
def read_logfiles (report : Json) : Option (List LogFile) :=
  match jget report "log_reports" with
  | some lrj =>
    match asIterable lrj with
    | some lrs => mapOption read_logfile lrs
    | none => none
  | none => none

/- ### The chronological sort keys (errors.py lines 77-95) -/

/-- Boolean order on instants with `none` as the top element modelling
`default_timestamp = datetime.max`: strict comparison. -/
def tsLT : Option Int → Option Int → Bool
  | none, _ => false
  | some _, none => true
  | some x, some y => decide (x < y)

/-- The sort key of an error, `(e.timestamp or default_timestamp, e.pos)`. -/
def errKey (e : Error) : Option Int × Int := (e.timestamp, e.pos)

/-- Non-strict comparison of error sort keys (lexicographic). -/
def errLE (a b : Error) : Bool :=
  tsLT a.timestamp b.timestamp || (a.timestamp == b.timestamp && decide (a.pos ≤ b.pos))

/-- Python string comparison: lexicographic by code point. -/
def charListLE : List Char → List Char → Bool
  | [], _ => true
  | _ :: _, [] => false
  | c :: cs, d :: ds =>
    if c.toNat < d.toNat then true
    else if c.toNat = d.toNat then charListLE cs ds
    else false

/-- Python `<=` on strings. -/
def pyStrLE (a b : String) : Bool := charListLE a.data b.data

/-- The timestamp part of a logfile's sort key: the first error's
timestamp when the logfile has errors and that timestamp is not null,
`default_timestamp` (the top element) otherwise. -/
def lfKeyTs (lf : LogFile) : Option Int :=
  match lf.errors with
  | e :: _ => e.timestamp
  | [] => none

/-- The sort key of a logfile. -/
def lfKey (lf : LogFile) : Option Int × String := (lfKeyTs lf, lf.source)

/-- Non-strict comparison of logfile sort keys (lexicographic). -/
def lfLE (a b : LogFile) : Bool :=
  tsLT (lfKeyTs a) (lfKeyTs b) || (lfKeyTs a == lfKeyTs b && pyStrLE a.source b.source)

/-- The error order as a decidable relation. -/
def errR (a b : Error) : Prop := errLE a b = true

instance : DecidableRel errR := fun a b => inferInstanceAs (Decidable (errLE a b = true))

/-- The logfile order as a decidable relation. -/
def lfR (a b : LogFile) : Prop := lfLE a b = true

instance : DecidableRel lfR := fun a b => inferInstanceAs (Decidable (lfLE a b = true))

/-- The in-place stable sort `logfile.errors.sort(key=...)` of errors.py
line 91, applied to one logfile. -/
def sortErrors (lf : LogFile) : LogFile :=
  ⟨lf.source, List.insertionSort errR lf.errors⟩

/-- `sort_logfiles` of errors.py: stable sort by the logfile key. -/
def sort_logfiles (logfiles : List LogFile) : List LogFile :=
  List.insertionSort lfR logfiles

/-- `json_to_report` of errors.py. -/
def json_to_report (report : Json) : Option Report :=
  match read_logfiles report with
  | some logfiles =>
    match jget report "target" with
    | some tj => (read_target tj).map fun tgt => ⟨tgt, sort_logfiles (logfiles.map sortErrors)⟩
    | none => none
  | none => none

/- ### Prompt building (agent/predict.py lines 71-86) -/

/-- `report_to_prompt` of agent/predict.py: the accumulating `lines` list
built by the nested for loops, joined with newlines. -/
def report_to_prompt (report : Report) : String :=
  let lines := report.logfiles.foldl
    (fun lines logfile =>
      let lines := lines ++ ["\n## " ++ logfile.source]
      logfile.errors.foldl
        (fun lines error => ((lines ++ error.before) ++ [error.line]) ++ error.after)
        lines)
    []
  String.intercalate "\n" lines

/- ### The read_errors tool closure (agent/react.py lines 39-48) -/

/-- The linear scan of the captured report's logfiles. -/
def read_errors_list : List LogFile → String → List Error
  | [], _ => []
  | lf :: rest, source =>
    if lf.source = source then lf.errors else read_errors_list rest source

/-- The `read_errors` tool of agent/react.py: first logfile with the
given source, or the empty list. -/
def read_errors (report : Report) (source : String) : List Error :=
  read_errors_list report.logfiles source

/- ### Issue correlation (jira.py) -/

/-- The configuration values `JIRA_URL` and `DEFAULT_JIRA_PROJECTS`
consumed by jira.py from the external config module. -/
structure JiraConfig where
  jiraUrl : String
  projects : List String

/-- The external world one `JiraSearchTool.run` call interacts with:
the outcome of the LLM query generation for a given root cause
(`.error` models an exception during the prompt call or the JSON
parsing of its reply), and the issue tracker's HTTP reply (status, and
the parsed body, `none` when the body is not valid JSON). -/
structure JiraEnv where
  config : JiraConfig
  gen : String → Except Unit String
  status : Nat
  body : Option Json

/-- The parameters of one search request as sent by `search_jira`. -/
structure SearchReq where
  jql : String
  maxResults : Int
  fields : String
  deriving DecidableEq, Repr

/-- `list(map ...)`-style traversal for the fallible shaping steps. -/
def mapExcept (f : α → Except Unit β) : List α → Except Unit (List β)
  | [] => .ok []
  | a :: l =>
    match f a, mapExcept f l with
    | .ok b, .ok bl => .ok (b :: bl)
    | .error e, _ => .error e
    | _, .error e => .error e

/-- `JiraSearchTool.search_jira`: builds the request (result cap
defaulting to 5, fixed field projection), then `raise_for_status`
models any non-2xx reply as an exception, and a body that is not valid
JSON also raises. -/
def search_jira (env : JiraEnv) (jql : String) (maxResults : Int := 5) :
    SearchReq × Except Unit Json :=
  (⟨jql, maxResults, "summary,status,priority,assignee"⟩,
   if 200 ≤ env.status ∧ env.status ≤ 299 then
     match env.body with
     | some b => .ok b
     | none => .error ()
   else .error ())

/-- `d.get(k, default)`: raises (`AttributeError`) on a non-mapping. -/
def pyGetD (d : Json) (k : String) (dflt : Json) : Except Unit Json :=
  match d with
  | .obj _ => .ok ((jget d k).getD dflt)
  | _ => .error ()

/-- Python `x == 0` on a raw value (`False == 0` holds). -/
def jsonEqZero : Json → Bool
  | .num 0 => true
  | .bool false => true
  | _ => false

/-- Iteration in `for issue in results.get("issues", [])`. -/
def iterElems : Json → Except Unit (List Json)
  | .arr l => .ok l
  | .str s => .ok (s.data.map fun c => .str (String.mk [c]))
  | .obj kvs => .ok (kvs.map fun kv => .str kv.1)
  | _ => .error ()

/-- Shaping of one hit (jira.py lines 131-142). -/
def shapeIssue (cfg : JiraConfig) (issue : Json) : Except Unit Json := do
  let key ← pyGetD issue "key" .null
  let fields ← pyGetD issue "fields" (.obj [])
  let summary ← pyGetD fields "summary" (.str "N/A")
  .ok (.obj [("id", key), ("summary", summary),
             ("url", .str (cfg.jiraUrl ++ "/browse/" ++ pyStr key))])

/-- The result shaping of `run` after a successful search (jira.py lines
124-143): empty dict on zero hits, else the shaped issue list. -/
def shapeResults (cfg : JiraConfig) (results : Json) : Except Unit Json := do
  let total ← pyGetD results "total" (.num 0)
  if jsonEqZero total then .ok (.obj [])
  else do
    let issuesRaw ← pyGetD results "issues" (.arr [])
    let elems ← iterElems issuesRaw
    let shaped ← mapExcept (shapeIssue cfg) elems
    .ok (.obj [("jira_issues", .arr shaped)])

/-- `JiraSearchTool.run`: the main flow with its enclosing catch-all.
Besides the returned dict the model records the search request that was
actually issued (`none` when no search call was attempted). -/
def run (env : JiraEnv) (root_cause : String) : Json × Option SearchReq :=
  match env.gen root_cause with
  | .error _ => (.obj [], none)
  | .ok generated_jql =>
    if generated_jql = "" then (.obj [], none)
    else
      let project_jql :=
        "project in (" ++ String.intercalate ", " env.config.projects ++ ") AND "
          ++ generated_jql
      let req := (search_jira env project_jql).1
      match (search_jira env project_jql).2 with
      | .error _ => (.obj [], some req)
      | .ok results =>
        match shapeResults env.config results with
        | .error _ => (.obj [], some req)
        | .ok out => (out, some req)

/- ### Usage events (model.py lines 68-79, agent/predict.py lines 55-68) -/

/-- One entry of `result.get_lm_usage()`: the token counts, absent keys
yielding `None` through `usage.get`. -/
structure LMUsage where
  prompt_tokens : Option Int
  completion_tokens : Option Int
  deriving DecidableEq, Repr

/-- An event emitted through `worker.emit(payload, kind)`. -/
structure Event where
  payload : Json
  kind : String

/-- `Option Int` to raw value, for the usage payload fields. -/
def optNum : Option Int → Json
  | some n => .num n
  | none => .null

/-- The payload-and-kind pair emitted for one model of the usage dict. -/
def usageEvent (model : String) (u : LMUsage) : Event :=
  ⟨.obj [("model", .str model), ("input", optNum u.prompt_tokens),
         ("output", optNum u.completion_tokens)], "usage"⟩

/-- `emit_dspy_usage` of model.py: one emit per model of the usage dict,
nothing when the dict is empty (falsy). -/
def emit_dspy_usage (usages : List (String × LMUsage)) : List Event :=
  if usages.isEmpty then []
  else usages.map fun mu => usageEvent mu.1 mu.2

/-- The events `call_agent` of agent/predict.py emits through the worker:
the progress notification, then the usage events. -/
def call_agent_events (usages : List (String × LMUsage)) : List Event :=
  ⟨.str "Calling RCAPredict", "progress"⟩ :: emit_dspy_usage usages

/- ### Acceptance predicates for the normalizer's failure behaviour -/

/-- A raw value pydantic accepts for `timestamp: datetime | None`. -/
def tsJsonOK : Json → Bool
  | .null => true
  | .num _ => true
  | _ => false

/-- A raw value pydantic accepts for `list[str]`. -/
def strListOK : Json → Bool
  | .arr l => l.all fun x => match x with | .str _ => true | _ => false
  | _ => false

/-- A complete, well-typed anomaly record. -/
def anomalyOK (a : Json) : Bool :=
  match jget a "before", jget a "anomaly", jget a "after" with
  | some bf, some an, some af =>
    strListOK bf && strListOK af &&
      (match jget an "line", jget an "pos", jget an "timestamp" with
       | some (.str _), some (.num _), some ts => tsJsonOK ts
       | _, _, _ => false)
  | _, _, _ => false

/-- Slicing `path[pos:]` succeeds: string path, integer offset. -/
def sliceOK (pos : Json) (path : Json) : Bool :=
  match path, pos with
  | .str _, .num _ => true
  | .str _, .bool _ => true
  | _, _ => false

/-- Source resolution terminates without an exception: either a remote
shape whose slice is well-typed, or no recognized shape at all (which
degrades to the placeholder). -/
def sourceResolvable (s : Json) : Bool :=
  match getShape1 s with
  | some (pos, path) => sliceOK pos path
  | none =>
    match getShape2 s with
    | some (pos, path) => sliceOK pos path
    | none => true

/-- Target resolution terminates without an exception. -/
def targetResolvable (t : Json) : Bool :=
  match jget t "Zuul" with
  | some build =>
    match jget build "job_name" with
    | some (.str _) => true
    | _ => false
  | none => true

/-- A log-report entry the normalizer accepts. -/
def logReportOK (lr : Json) : Bool :=
  match jget lr "source", jget lr "anomalies" with
  | some s, some ans =>
    sourceResolvable s &&
      (match asIterable ans with
       | some l => l.all anomalyOK
       | none => false)
  | _, _ => false

/-- The exact set of raw inputs `json_to_report` accepts. -/
def acceptCond (j : Json) : Bool :=
  match jget j "log_reports", jget j "target" with
  | some lrj, some t =>
    (match asIterable lrj with
     | some lrs => lrs.all logReportOK
     | none => false) && targetResolvable t
  | _, _ => false

/-- The lines a single error contributes to the prompt. -/
def errorLines (e : Error) : List String := e.before ++ e.line :: e.after

/-- The lines a single logfile contributes to the prompt. -/
def logfileLines (lf : LogFile) : List String :=
  ("\n## " ++ lf.source) :: lf.errors.flatMap errorLines

/- ### Concrete inputs -/

/-- The doctest source of errors.py. -/
def exRemoteSrc : Json :=
  .obj [("RawFile", .obj [("Remote", .arr [.num 12, .str "example.com/zuul/overcloud.log"])])]

/-- A tar-member source shape. -/
def exTarSrc : Json :=
  .obj [("TarFile", .arr [.obj [("Remote", .arr [.num 12, .str "example.com/logs.tar"])],
                          .null, .str "example.com/zuul/job-output.txt"])]

/-- A raw report with two logfiles whose keys tie on the timestamp and
whose errors arrive out of order. -/
def jEx : Json :=
  .obj [("target", .obj [("Zuul", .obj [("job_name", .str "tox")])]),
        ("log_reports", .arr [
          .obj [("source", .obj [("RawFile", .obj [("Remote",
                  .arr [.num 12, .str "example.com/zuul/b.log"])])]),
                ("anomalies", .arr [
                  .obj [("before", .arr []),
                        ("anomaly", .obj [("line", .str "late"), ("pos", .num 7),
                                          ("timestamp", .num 50)]),
                        ("after", .arr [])],
                  .obj [("before", .arr []),
                        ("anomaly", .obj [("line", .str "early"), ("pos", .num 3),
                                          ("timestamp", .num 10)]),
                        ("after", .arr [])]])],
          .obj [("source", .obj [("RawFile", .obj [("Remote",
                  .arr [.num 12, .str "example.com/zuul/a.log"])])]),
                ("anomalies", .arr [
                  .obj [("before", .arr []),
                        ("anomaly", .obj [("line", .str "first"), ("pos", .num 1),
                                          ("timestamp", .num 10)]),
                        ("after", .arr [])]])]])]

/-- The report the normalizer produces for `jEx`. -/
def repEx : Report :=
  ⟨"tox", [⟨"zuul/a.log", [⟨[], "first", 1, [], some 10⟩]⟩,
           ⟨"zuul/b.log", [⟨[], "early", 3, [], some 10⟩, ⟨[], "late", 7, [], some 50⟩]⟩]⟩

/-- A raw report whose top-level keys are present but whose single
anomaly record is empty. -/
def c2bad : Json :=
  .obj [("target", .obj [("Zuul", .obj [("job_name", .str "tox")])]),
        ("log_reports", .arr [.obj [("source", exRemoteSrc),
                                    ("anomalies", .arr [.obj []])]])]

/-- An environment whose query generation succeeds with a non-empty
query regardless of the root cause, and whose search returns one hit. -/
def envC6 : JiraEnv :=
  ⟨⟨"https://issues.redhat.com", ["OSP", "RHOSO"]⟩, fun _ => .ok "summary ~ x", 200,
   some (.obj [("total", .num 1),
               ("issues", .arr [.obj [("key", .str "OSP-1"),
                                      ("fields", .obj [("summary", .str "boom")])]])])⟩

/-- An environment whose search endpoint replies HTTP 500. -/
def env500 : JiraEnv :=
  ⟨⟨"https://issues.redhat.com", ["OSP"]⟩, fun _ => .ok "summary ~ q", 500,
   some (.obj [("total", .num 0)])⟩

/-- An environment whose query generation raises. -/
def envGenFail : JiraEnv :=
  ⟨⟨"https://issues.redhat.com", ["OSP"]⟩, fun _ => .error (), 200, some (.obj [])⟩

/-- An environment whose search reply is not valid JSON. -/
def envBadBody : JiraEnv :=
  ⟨⟨"https://issues.redhat.com", ["OSP"]⟩, fun _ => .ok "summary ~ q", 200, none⟩

/-- An environment whose query generation yields the empty string. -/
def envEmptyGen : JiraEnv :=
  ⟨⟨"https://issues.redhat.com", ["OSP"]⟩, fun _ => .ok "", 200, some (.obj [])⟩

/-- A usage report naming two models. -/
def usages2 : List (String × LMUsage) :=
  [("gemini-2.5-flash", ⟨some 10, some 5⟩), ("gemini-2.5-pro", ⟨some 7, some 3⟩)]

/- ### Order lemmas for the sort keys -/

lemma tsLT_trans {a b c : Option Int} (h1 : tsLT a b = true) (h2 : tsLT b c = true) :
    tsLT a c = true := by
  cases a <;> cases b <;> cases c <;> simp_all [tsLT] <;> omega

lemma tsLT_cases (a b : Option Int) : tsLT a b = true ∨ a = b ∨ tsLT b a = true := by
  cases a <;> cases b <;> simp [tsLT] <;> omega

lemma errLE_trans (a b c : Error) (hab : errLE a b = true) (hbc : errLE b c = true) :
    errLE a c = true := by
  simp only [errLE, Bool.or_eq_true, Bool.and_eq_true, beq_iff_eq, decide_eq_true_eq]
    at hab hbc ⊢
  rcases hab with h1 | ⟨h1, p1⟩ <;> rcases hbc with h2 | ⟨h2, p2⟩
  · exact Or.inl (tsLT_trans h1 h2)
  · exact Or.inl (h2 ▸ h1)
  · exact Or.inl (h1 ▸ h2)
  · exact Or.inr ⟨h1.trans h2, le_trans p1 p2⟩

lemma errLE_total (a b : Error) : errLE a b = true ∨ errLE b a = true := by
  simp only [errLE, Bool.or_eq_true, Bool.and_eq_true, beq_iff_eq, decide_eq_true_eq]
  rcases tsLT_cases a.timestamp b.timestamp with h | h | h
  · exact Or.inl (Or.inl h)
  · rcases le_total a.pos b.pos with hp | hp
    · exact Or.inl (Or.inr ⟨h, hp⟩)
    · exact Or.inr (Or.inr ⟨h.symm, hp⟩)
  · exact Or.inr (Or.inl h)

lemma charListLE_cons {x y : Char} {xs ys : List Char} :
    charListLE (x :: xs) (y :: ys) = true ↔
      x.toNat < y.toNat ∨ (x.toNat = y.toNat ∧ charListLE xs ys = true) := by
  simp only [charListLE]
  split_ifs with h1 h2
  · simp [h1]
  · simp [h1, h2]
  · simp [h1, h2]

lemma charListLE_refl : ∀ l : List Char, charListLE l l = true := by
  intro l
  induction l with
  | nil => rfl
  | cons c cs ih => rw [charListLE_cons]; exact Or.inr ⟨rfl, ih⟩

lemma charListLE_trans : ∀ a b c : List Char,
    charListLE a b = true → charListLE b c = true → charListLE a c = true := by
  intro a
  induction a with
  | nil => intro b c _ _; rfl
  | cons x xs ih =>
    intro b c hab hbc
    cases b with
    | nil => simp [charListLE] at hab
    | cons y ys =>
      cases c with
      | nil => simp [charListLE] at hbc
      | cons z zs =>
        rw [charListLE_cons] at hab hbc ⊢
        rcases hab with h1 | ⟨h1, hr1⟩ <;> rcases hbc with h2 | ⟨h2, hr2⟩
        · exact Or.inl (by omega)
        · exact Or.inl (by omega)
        · exact Or.inl (by omega)
        · exact Or.inr ⟨by omega, ih ys zs hr1 hr2⟩

lemma charListLE_total : ∀ a b : List Char, charListLE a b = true ∨ charListLE b a = true := by
  intro a
  induction a with
  | nil => intro b; exact Or.inl rfl
  | cons x xs ih =>
    intro b
    cases b with
    | nil => exact Or.inr rfl
    | cons y ys =>
      rw [charListLE_cons, charListLE_cons]
      rcases Nat.lt_trichotomy x.toNat y.toNat with h | h | h
      · exact Or.inl (Or.inl h)
      · rcases ih ys with h2 | h2
        · exact Or.inl (Or.inr ⟨h, h2⟩)
        · exact Or.inr (Or.inr ⟨h.symm, h2⟩)
      · exact Or.inr (Or.inl h)

lemma lfLE_trans (a b c : LogFile) (hab : lfLE a b = true) (hbc : lfLE b c = true) :
    lfLE a c = true := by
  simp only [lfLE, Bool.or_eq_true, Bool.and_eq_true, beq_iff_eq] at hab hbc ⊢
  rcases hab with h1 | ⟨h1, p1⟩ <;> rcases hbc with h2 | ⟨h2, p2⟩
  · exact Or.inl (tsLT_trans h1 h2)
  · exact Or.inl (h2 ▸ h1)
  · exact Or.inl (h1 ▸ h2)
  · exact Or.inr ⟨h1.trans h2, charListLE_trans _ _ _ p1 p2⟩

lemma lfLE_total (a b : LogFile) : lfLE a b = true ∨ lfLE b a = true := by
  simp only [lfLE, Bool.or_eq_true, Bool.and_eq_true, beq_iff_eq]
  rcases tsLT_cases (lfKeyTs a) (lfKeyTs b) with h | h | h
  · exact Or.inl (Or.inl h)
  · rcases charListLE_total a.source.data b.source.data with hp | hp
    · exact Or.inl (Or.inr ⟨h, hp⟩)
    · exact Or.inr (Or.inr ⟨h.symm, hp⟩)
  · exact Or.inr (Or.inl h)

lemma errLE_of_key_eq {a b : Error} (h : errKey a = errKey b) : errLE a b = true := by
  simp only [errKey, Prod.mk.injEq] at h
  simp only [errLE, Bool.or_eq_true, Bool.and_eq_true, beq_iff_eq, decide_eq_true_eq]
  exact Or.inr ⟨h.1, le_of_eq h.2⟩

lemma lfLE_of_key_eq {a b : LogFile} (h : lfKey a = lfKey b) : lfLE a b = true := by
  simp only [lfKey, Prod.mk.injEq] at h
  simp only [lfLE, Bool.or_eq_true, Bool.and_eq_true, beq_iff_eq]
  exact Or.inr ⟨h.1, h.2 ▸ charListLE_refl a.source.data⟩

/- ### mapOption lemmas -/

lemma mapOption_isSome {f : α → Option β} {g : α → Bool} (hfg : ∀ a, (f a).isSome = g a) :
    ∀ l : List α, (mapOption f l).isSome = l.all g := by
  intro l
  induction l with
  | nil => rfl
  | cons a l ih =>
    simp only [mapOption, List.all_cons, ← ih, ← hfg a]
    cases f a <;> cases mapOption f l <;> simp

lemma mapOption_forall₂ {f : α → Option β} :
    ∀ {l : List α} {m : List β}, mapOption f l = some m →
      List.Forall₂ (fun a b => f a = some b) l m := by
  intro l
  induction l with
  | nil =>
    intro m h
    obtain rfl := Option.some.inj h
    exact List.Forall₂.nil
  | cons a l ih =>
    intro m h
    unfold mapOption at h
    cases hfa : f a with
    | none => rw [hfa] at h; cases h
    | some b =>
      rw [hfa] at h
      cases hml : mapOption f l with
      | none => rw [hml] at h; cases h
      | some bl =>
        rw [hml] at h
        obtain rfl := Option.some.inj h
        exact List.Forall₂.cons hfa (ih hml)

/- ### The acceptance characterization of the normalizer -/

lemma asStrList_isSome (j : Json) : (asStrList j).isSome = strListOK j := by
  cases j <;> simp only [asStrList, strListOK, Option.isSome_none]
  case arr l =>
    exact mapOption_isSome (fun a => by cases a <;> rfl) l

lemma asTimestamp_isSome (j : Json) : (asTimestamp j).isSome = tsJsonOK j := by
  cases j <;> rfl

lemma read_error_isSome (a : Json) : (read_error a).isSome = anomalyOK a := by
  unfold read_error anomalyOK
  cases jget a "before" with
  | none => rfl
  | some bf =>
    cases jget a "anomaly" with
    | none => rfl
    | some an =>
      try dsimp only
      cases jget a "after" with
      | none => rfl
      | some af =>
        try dsimp only
        rw [← asStrList_isSome bf, ← asStrList_isSome af]
        cases asStrList bf with
        | none => simp
        | some l1 =>
          try dsimp only
          cases asStrList af with
          | none => simp
          | some l2 =>
            dsimp only [Option.isSome_some, Bool.true_and]
            cases jget an "line" with
            | none => rfl
            | some lv =>
              try dsimp only
              cases jget an "pos" with
              | none => cases lv <;> rfl
              | some pv =>
                try dsimp only
                cases jget an "timestamp" with
                | none => cases lv <;> cases pv <;> rfl
                | some tsj => cases lv <;> cases pv <;> cases tsj <;> rfl

lemma pySliceJson_isSome (path pos : Json) : (pySliceJson path pos).isSome = sliceOK pos path := by
  cases path <;> cases pos <;> rfl

lemma read_source_isSome (s : Json) : (read_source s).isSome = sourceResolvable s := by
  unfold read_source sourceResolvable
  cases getShape1 s with
  | some pp => exact pySliceJson_isSome pp.2 pp.1
  | none =>
    cases getShape2 s with
    | some pp => exact pySliceJson_isSome pp.2 pp.1
    | none => rfl

lemma read_target_isSome (t : Json) : (read_target t).isSome = targetResolvable t := by
  unfold read_target targetResolvable
  cases jget t "Zuul" with
  | none => rfl
  | some build =>
    try dsimp only
    cases jget build "job_name" with
    | none => rfl
    | some v => cases v <;> rfl

lemma read_logfile_isSome (lr : Json) : (read_logfile lr).isSome = logReportOK lr := by
  unfold read_logfile logReportOK
  cases jget lr "source" with
  | none => rfl
  | some src =>
    cases jget lr "anomalies" with
    | none => rfl
    | some ans =>
      try dsimp only
      rw [← read_source_isSome src]
      cases read_source src with
      | none =>
        cases asIterable ans <;> simp
      | some s =>
        try dsimp only
        cases asIterable ans with
        | none => simp
        | some l =>
          dsimp only [Option.isSome_some, Bool.true_and]
          rw [show ∀ o : Option (List Error), (o.map fun errs => LogFile.mk s errs).isSome = o.isSome
                from fun o => by cases o <;> rfl]
          exact mapOption_isSome read_error_isSome l

/-- C2 (amended): the exact failure behaviour of the normalizer.
`json_to_report` succeeds precisely when the top-level keys `target` and
`log_reports` are present, every log-report entry carries `source` and
`anomalies` keys with each anomaly record complete and well-typed, and
the source/target values are either of a well-formed recognized shape or
of an unrecognized shape (which degrades to a placeholder); a malformed
individual record inside `log_reports` therefore raises just as missing
top-level keys do. -/
theorem json_to_report_accepts (j : Json) : (json_to_report j).isSome = acceptCond j := by
  unfold json_to_report read_logfiles acceptCond
  cases jget j "log_reports" with
  | none => cases jget j "target" <;> rfl
  | some lrj =>
    try dsimp only
    cases jget j "target" with
    | none =>
      cases asIterable lrj with
      | none => rfl
      | some lrs =>
        try dsimp only
        cases mapOption read_logfile lrs <;> rfl
    | some t =>
      try dsimp only
      cases asIterable lrj with
      | none => rfl
      | some lrs =>
        try dsimp only
        rw [show lrs.all logReportOK = (mapOption read_logfile lrs).isSome from
              (mapOption_isSome read_logfile_isSome lrs).symm]
        cases mapOption read_logfile lrs with
        | none => rfl
        | some logfiles =>
          dsimp only [Option.isSome_some, Bool.true_and]
          rw [← read_target_isSome t]
          cases read_target t <;> rfl

/- ### Prompt building lemmas -/

lemma foldl_error_lines (errs : List Error) :
    ∀ init : List String,
      errs.foldl (fun lines error => ((lines ++ error.before) ++ [error.line]) ++ error.after) init
        = init ++ errs.flatMap errorLines := by
  induction errs with
  | nil => intro init; simp
  | cons e es ih =>
    intro init
    rw [List.foldl_cons, ih, List.flatMap_cons]
    simp [errorLines, List.append_assoc]

lemma foldl_logfile_lines (lfs : List LogFile) :
    ∀ init : List String,
      lfs.foldl
        (fun lines logfile =>
          logfile.errors.foldl
            (fun lines error => ((lines ++ error.before) ++ [error.line]) ++ error.after)
            (lines ++ ["\n## " ++ logfile.source]))
        init
      = init ++ lfs.flatMap logfileLines := by
  induction lfs with
  | nil => intro init; simp
  | cons lf rest ih =>
    intro init
    rw [List.foldl_cons, foldl_error_lines, ih, List.flatMap_cons]
    simp [logfileLines, List.append_assoc]

/-- C4: the prompt builder renders, per logfile in order, the header line
followed by each error's before lines, anomaly line and after lines, all
joined with newlines; the empty report yields the empty string, a
zero-error logfile contributes only its header, and the claim's concrete
report renders exactly as stated. -/
theorem report_to_prompt_spec :
    (∀ rep : Report, report_to_prompt rep =
      String.intercalate "\n" (rep.logfiles.flatMap fun lf =>
        ("\n## " ++ lf.source) :: lf.errors.flatMap fun e => e.before ++ e.line :: e.after))
  ∧ (∀ t : String, report_to_prompt ⟨t, []⟩ = "")
  ∧ (∀ t s : String, report_to_prompt ⟨t, [⟨s, []⟩]⟩ = "\n## " ++ s)
  ∧ report_to_prompt ⟨"tox", [⟨"zuul/overcloud.log", [⟨[], "oops", 42, [], none⟩]⟩]⟩ =
      "\n## zuul/overcloud.log\noops" := by
  refine ⟨fun rep => ?_, fun t => rfl, fun t s => rfl, by decide⟩
  unfold report_to_prompt
  rw [foldl_logfile_lines]
  simp only [List.nil_append]
  rfl

/- ### The read_errors tool is total -/

/-- C9: the `read_errors` tool never raises: for any source string it
returns the errors of a logfile having exactly that source when one
exists, and the empty list when none does. -/
theorem read_errors_total (rep : Report) (source : String) :
    (∃ lf ∈ rep.logfiles, lf.source = source ∧ read_errors rep source = lf.errors)
  ∨ ((∀ lf ∈ rep.logfiles, lf.source ≠ source) ∧ read_errors rep source = []) := by
  unfold read_errors
  have main : ∀ lfs : List LogFile,
      (∃ lf ∈ lfs, lf.source = source ∧ read_errors_list lfs source = lf.errors)
    ∨ ((∀ lf ∈ lfs, lf.source ≠ source) ∧ read_errors_list lfs source = []) := by
    intro lfs
    induction lfs with
    | nil => exact Or.inr ⟨by simp, rfl⟩
    | cons lf rest ih =>
      by_cases h : lf.source = source
      · exact Or.inl ⟨lf, by simp, h, by simp [read_errors_list, h]⟩
      · rcases ih with ⟨lf0, hmem, hsrc, heq⟩ | ⟨hall, heq⟩
        · exact Or.inl ⟨lf0, by simp [hmem], hsrc, by simp [read_errors_list, h, heq]⟩
        · refine Or.inr ⟨?_, by simp [read_errors_list, h, heq]⟩
          intro lf1 hmem1
          rcases List.mem_cons.mp hmem1 with rfl | hmem1
          · exact h
          · exact hall lf1 hmem1
  exact main rep.logfiles


/- ### Destructuring lemmas for the normalizer -/

lemma json_to_report_eq {j : Json} {rep : Report} (h : json_to_report j = some rep) :
    ∃ logfiles tj tgt, read_logfiles j = some logfiles ∧ jget j "target" = some tj
      ∧ read_target tj = some tgt
      ∧ rep = ⟨tgt, sort_logfiles (logfiles.map sortErrors)⟩ := by
  unfold json_to_report at h
  cases hm : read_logfiles j with
  | none => rw [hm] at h; cases h
  | some logfiles =>
    rw [hm] at h
    try dsimp only at h
    cases ht : jget j "target" with
    | none => rw [ht] at h; cases h
    | some tj =>
      rw [ht] at h
      try dsimp only at h
      cases htg : read_target tj with
      | none => rw [htg] at h; cases h
      | some tgt =>
        rw [htg] at h
        exact ⟨logfiles, tj, tgt, rfl, rfl, htg, (Option.some.inj h).symm⟩

lemma read_logfiles_eq {j : Json} {mid : List LogFile} (h : read_logfiles j = some mid) :
    ∃ lrj lrs, jget j "log_reports" = some lrj ∧ asIterable lrj = some lrs
      ∧ mapOption read_logfile lrs = some mid := by
  unfold read_logfiles at h
  cases hlr : jget j "log_reports" with
  | none => rw [hlr] at h; cases h
  | some lrj =>
    rw [hlr] at h
    try dsimp only at h
    cases hit : asIterable lrj with
    | none => rw [hit] at h; cases h
    | some lrs =>
      rw [hit] at h
      exact ⟨lrj, lrs, rfl, hit, h⟩

lemma read_logfile_eq {lr : Json} {lf : LogFile} (h : read_logfile lr = some lf) :
    ∃ src ans s l errs, jget lr "source" = some src ∧ jget lr "anomalies" = some ans
      ∧ read_source src = some s ∧ asIterable ans = some l
      ∧ mapOption read_error l = some errs ∧ lf = ⟨s, errs⟩ := by
  unfold read_logfile at h
  cases hsrc : jget lr "source" with
  | none => rw [hsrc] at h; cases h
  | some src =>
    rw [hsrc] at h
    try dsimp only at h
    cases hans : jget lr "anomalies" with
    | none => rw [hans] at h; cases h
    | some ans =>
      rw [hans] at h
      try dsimp only at h
      cases hrs : read_source src with
      | none => rw [hrs] at h; cases h
      | some s =>
        rw [hrs] at h
        try dsimp only at h
        cases hia : asIterable ans with
        | none => rw [hia] at h; cases h
        | some l =>
          rw [hia] at h
          try dsimp only at h
          cases hmo : mapOption read_error l with
          | none => rw [hmo] at h; cases h
          | some errs =>
            rw [hmo] at h
            exact ⟨src, ans, s, l, errs, rfl, rfl, hrs, hia, hmo, (Option.some.inj h).symm⟩

/- ### Sorting invariants of the normalizer -/

/-- C1: every report the normalizer accepts has its logfiles sorted
non-decreasing by `(first-error timestamp or maximal timestamp, source)`
and each logfile's errors sorted non-decreasing by
`(timestamp or maximal timestamp, pos)`; both sorts are stable: a pair
tied on its key keeps its input order (as a pair sublist). -/
theorem json_to_report_sorted (j : Json) (rep : Report)
    (h : json_to_report j = some rep) :
    List.Pairwise lfR rep.logfiles
  ∧ (∀ lf ∈ rep.logfiles, List.Pairwise errR lf.errors)
  ∧ ∀ mid, read_logfiles j = some mid →
      (∀ a b : LogFile, lfKey a = lfKey b → List.Sublist [a, b] (mid.map sortErrors) →
        List.Sublist [a, b] rep.logfiles)
      ∧ (∀ lf ∈ mid, ∀ a b : Error, errKey a = errKey b → List.Sublist [a, b] lf.errors →
          List.Sublist [a, b] (sortErrors lf).errors) := by
  obtain ⟨logfiles, tj, tgt, hm, ht, htg, rfl⟩ := json_to_report_eq h
  refine ⟨?_, ?_, ?_⟩
  · exact @List.sorted_insertionSort LogFile lfR inferInstance ⟨lfLE_total⟩ ⟨lfLE_trans⟩ (logfiles.map sortErrors)
  · intro lf hmem
    simp only [sort_logfiles] at hmem
    rw [List.mem_insertionSort] at hmem
    rcases List.mem_map.mp hmem with ⟨lf0, _, rfl⟩
    exact @List.sorted_insertionSort Error errR inferInstance ⟨errLE_total⟩ ⟨errLE_trans⟩ lf0.errors
  · intro mid hmid
    rw [hm] at hmid
    obtain rfl := Option.some.inj hmid
    constructor
    · intro a b hk hsub
      exact List.pair_sublist_insertionSort (lfLE_of_key_eq hk) hsub
    · intro lf _ a b hk hsub
      exact List.pair_sublist_insertionSort (errLE_of_key_eq hk) hsub

/- ### Record-count preservation of the normalizer -/

/-- C10: normalization is record-count preserving: one `LogFile` per
`log_reports` entry, one `Error` per anomaly of that entry, and the two
sorting passes only permute — nothing is dropped, duplicated, or
modified except for order. -/
theorem json_to_report_counts (j : Json) (rep : Report)
    (h : json_to_report j = some rep) :
    ∃ lrs mid,
      (jget j "log_reports").bind asIterable = some lrs
    ∧ mapOption read_logfile lrs = some mid
    ∧ List.Forall₂ (fun lr lf => read_logfile lr = some lf) lrs mid
    ∧ rep.logfiles.length = lrs.length
    ∧ List.Perm rep.logfiles (mid.map sortErrors)
    ∧ (∀ lf ∈ mid, (sortErrors lf).source = lf.source
        ∧ List.Perm (sortErrors lf).errors lf.errors)
    ∧ List.Forall₂ (fun lr lf => ∃ ans, (jget lr "anomalies").bind asIterable = some ans
        ∧ List.Forall₂ (fun an e => read_error an = some e) ans lf.errors) lrs mid := by
  obtain ⟨logfiles, tj, tgt, hm, ht, htg, rfl⟩ := json_to_report_eq h
  obtain ⟨lrj, lrs, hlr, hit, hmo⟩ := read_logfiles_eq hm
  refine ⟨lrs, logfiles, by rw [hlr]; exact hit, hmo, mapOption_forall₂ hmo, ?_, ?_, ?_, ?_⟩
  · rw [show (Report.mk tgt (sort_logfiles (logfiles.map sortErrors))).logfiles
        = sort_logfiles (logfiles.map sortErrors) from rfl]
    rw [sort_logfiles, List.length_insertionSort, List.length_map]
    exact (List.Forall₂.length_eq (mapOption_forall₂ hmo)).symm
  · exact List.perm_insertionSort lfR (logfiles.map sortErrors)
  · intro lf _
    exact ⟨rfl, List.perm_insertionSort errR lf.errors⟩
  · refine List.Forall₂.imp ?_ (mapOption_forall₂ hmo)
    intro lr lf hread
    obtain ⟨src, ans, s, l, errs, hsrc, hans, hrs, hia, hme, rfl⟩ := read_logfile_eq hread
    exact ⟨l, by rw [hans]; exact hia, mapOption_forall₂ hme⟩

/- ### Source and target resolution behaviour -/

/-- C5 (amended): resolution is polymorphic — a matched remote raw-file
or tar-member shape is trimmed by `path[pos:]`, and every shape matching
neither pattern degrades to the placeholder string — but it is not
total: a recognized shape with missing or ill-typed inner fields raises
(`{"Zuul": {}}` raises `KeyError`, and a matched remote shape whose
offset is not an integer or whose path is not a string raises
`TypeError`). -/
theorem resolution_amended :
    read_source exRemoteSrc = some "zuul/overcloud.log"
  ∧ read_source exTarSrc = some "zuul/job-output.txt"
  ∧ (∀ j pp, getShape1 j = some pp → read_source j = pySliceJson pp.2 pp.1)
  ∧ (∀ j pp, getShape1 j = none → getShape2 j = some pp →
      read_source j = pySliceJson pp.2 pp.1)
  ∧ (∀ j : Json, getShape1 j = none → getShape2 j = none →
      read_source j = some ("Unknown source: " ++ pyStr j))
  ∧ (∀ j : Json, jget j "Zuul" = none →
      read_target j = some ("Unknown target: " ++ pyStr j))
  ∧ read_target (.obj [("Zuul", .obj [])]) = none := by
  refine ⟨rfl, rfl, ?_, ?_, ?_, ?_, rfl⟩
  · intro j pp h1
    unfold read_source
    rw [h1]
  · intro j pp h1 h2
    unfold read_source
    rw [h1]
    try dsimp only
    rw [h2]
  · intro j h1 h2
    unfold read_source
    rw [h1]
    try dsimp only
    rw [h2]
  · intro j h1
    unfold read_target
    rw [h1]

/-- C5 counterexample: the recognized target shape `{"Zuul": {}}` raises
(`KeyError` on the missing `job_name`) instead of resolving, so
resolution is not total over raw shapes. -/
theorem resolution_counterexample : read_target (.obj [("Zuul", .obj [])]) = none := rfl

/-- C5 witness for the amended statement's quantified clauses. -/
theorem resolution_amended_witness :
    read_source (.str "weird") = some ("Unknown source: " ++ pyStr (.str "weird"))
  ∧ read_target (.num 5) = some ("Unknown target: " ++ pyStr (.num 5))
  ∧ read_source exRemoteSrc
      = pySliceJson (.str "example.com/zuul/overcloud.log") (.num 12) :=
  ⟨resolution_amended.2.2.2.2.1 (.str "weird") rfl rfl,
   resolution_amended.2.2.2.2.2.1 (.num 5) rfl,
   resolution_amended.2.2.1 exRemoteSrc (.num 12, .str "example.com/zuul/overcloud.log") rfl⟩

/- ### C2: when the normalizer raises -/

/-- C2 counterexample: a raw input whose top-level keys `target` and
`log_reports` are both present, yet normalization raises — the single
anomaly record is empty, so `read_error` hits a `KeyError` — refuting
the claim that only absent top-level keys can raise. -/
theorem normalizer_raise_counterexample :
    (jget c2bad "target").isSome = true
  ∧ (jget c2bad "log_reports").isSome = true
  ∧ json_to_report c2bad = none := ⟨rfl, rfl, by decide⟩

/- ### C3/C6/C7: the issue correlator boundary -/

lemma shapeResults_cases (cfg : JiraConfig) (results : Json) :
    shapeResults cfg results = .error ()
  ∨ shapeResults cfg results = .ok (.obj [])
  ∨ ∃ l, shapeResults cfg results = .ok (.obj [("jira_issues", .arr l)]) := by
  unfold shapeResults
  cases pyGetD results "total" (.num 0) with
  | error e => cases e; exact Or.inl rfl
  | ok total =>
    simp only [bind, Except.bind]
    by_cases hz : jsonEqZero total = true
    · rw [if_pos hz]; exact Or.inr (Or.inl rfl)
    · rw [if_neg hz]
      cases pyGetD results "issues" (.arr []) with
      | error e => cases e; exact Or.inl rfl
      | ok issuesRaw =>
        simp only [bind, Except.bind]
        cases iterElems issuesRaw with
        | error e => cases e; exact Or.inl rfl
        | ok elems =>
          simp only [bind, Except.bind]
          cases mapExcept (shapeIssue cfg) elems with
          | error e => cases e; exact Or.inl rfl
          | ok shaped => exact Or.inr (Or.inr ⟨shaped, rfl⟩)

/-- C3: `JiraSearchTool.run` never lets an exception escape — a failed
query generation, a non-2xx search reply, or an unparsable body each
yield the empty dict, and in every case the call returns either the
empty dict or a shaped issue list. -/
theorem run_contains_failures (env : JiraEnv) (rc : String) :
    (∀ e : Unit, env.gen rc = .error e → run env rc = (.obj [], none))
  ∧ (¬ (200 ≤ env.status ∧ env.status ≤ 299) → (run env rc).1 = .obj [])
  ∧ (env.body = none → (run env rc).1 = .obj [])
  ∧ ((run env rc).1 = .obj []
      ∨ ∃ issues, (run env rc).1 = .obj [("jira_issues", .arr issues)]) := by
  refine ⟨?_, ?_, ?_, ?_⟩
  · intro e hg
    unfold run
    rw [hg]
  · intro hcond
    unfold run
    cases hg : env.gen rc with
    | error e => rfl
    | ok q =>
      try dsimp only
      by_cases hq : q = ""
      · rw [if_pos hq]
      · rw [if_neg hq]
        try dsimp only
        rw [show (search_jira env ("project in ("
              ++ String.intercalate ", " env.config.projects ++ ") AND " ++ q)).2
            = Except.error () from by unfold search_jira; rw [if_neg hcond]]
  · intro hbody
    unfold run
    cases hg : env.gen rc with
    | error e => rfl
    | ok q =>
      try dsimp only
      by_cases hq : q = ""
      · rw [if_pos hq]
      · rw [if_neg hq]
        try dsimp only
        rw [show (search_jira env ("project in ("
              ++ String.intercalate ", " env.config.projects ++ ") AND " ++ q)).2
            = Except.error () from by
          unfold search_jira
          rw [hbody]
          split <;> rfl]
  · unfold run
    cases hg : env.gen rc with
    | error e => exact Or.inl rfl
    | ok q =>
      try dsimp only
      by_cases hq : q = ""
      · rw [if_pos hq]; exact Or.inl rfl
      · rw [if_neg hq]
        try dsimp only
        cases (search_jira env ("project in ("
            ++ String.intercalate ", " env.config.projects ++ ") AND " ++ q)).2 with
        | error e => exact Or.inl rfl
        | ok results =>
          try dsimp only
          rcases shapeResults_cases env.config results with hs | hs | ⟨l, hs⟩
          · rw [hs]; exact Or.inl rfl
          · rw [hs]; exact Or.inl rfl
          · rw [hs]; exact Or.inr ⟨l, rfl⟩

/-- C3 witness: concrete environments exercising each contained
failure. -/
theorem run_contains_failures_witness :
    run envGenFail "boom" = (.obj [], none)
  ∧ (run env500 "boom").1 = .obj []
  ∧ (run envBadBody "boom").1 = .obj [] :=
  ⟨(run_contains_failures envGenFail "boom").1 () rfl,
   (run_contains_failures env500 "boom").2.1 (by decide),
   (run_contains_failures envBadBody "boom").2.2.1 rfl⟩

/-- C6 (amended): a query generation that yields the empty string or
raises short-circuits `run` to the empty dict with no search attempted;
the empty root-cause string receives no special treatment. -/
theorem run_short_circuit (env : JiraEnv) (rc : String)
    (h : env.gen rc = .ok "" ∨ env.gen rc = .error ()) :
    run env rc = (.obj [], none) := by
  rcases h with h | h
  · unfold run
    rw [h]
    try dsimp only
    rw [if_pos rfl]
  · unfold run
    rw [h]

/-- C6 counterexample: on the empty root cause, when generation returns
a non-empty query, `run` does attempt the search (and here even returns
a non-empty result), refuting the claim that `correlate("")` returns
empty without a search call. -/
theorem run_empty_root_cause_counterexample :
    (run envC6 "").2.isSome = true
  ∧ (run envC6 "").1
      = .obj [("jira_issues", .arr [.obj [("id", .str "OSP-1"), ("summary", .str "boom"),
          ("url", .str "https://issues.redhat.com/browse/OSP-1")]])] := ⟨rfl, rfl⟩

/-- C6 witness for the amended statement. -/
theorem run_short_circuit_witness : run envEmptyGen "x" = (.obj [], none) :=
  run_short_circuit envEmptyGen "x" (Or.inl rfl)

/-- C7: whenever generation yields a non-empty query `q`, the search
executed is exactly the project-scoped wrap of `q`, with the default
result cap 5 and the fixed field projection. -/
theorem run_query_template (env : JiraEnv) (rc q : String)
    (hq : env.gen rc = .ok q) (hne : q ≠ "") :
    (run env rc).2 = some ⟨"project in (" ++ String.intercalate ", " env.config.projects
      ++ ") AND " ++ q, 5, "summary,status,priority,assignee"⟩ := by
  unfold run
  rw [hq]
  try dsimp only
  rw [if_neg hne]
  try dsimp only
  cases (search_jira env ("project in ("
      ++ String.intercalate ", " env.config.projects ++ ") AND " ++ q)).2 with
  | error e => rfl
  | ok results =>
    try dsimp only
    cases shapeResults env.config results with
    | error e => rfl
    | ok out => rfl

/-- C7 witness at a concrete environment. -/
theorem run_query_template_witness :
    (run envC6 "some root cause").2 = some ⟨"project in (OSP, RHOSO) AND summary ~ x", 5,
      "summary,status,priority,assignee"⟩ :=
  run_query_template envC6 "some root cause" "summary ~ x" rfl (by decide)

/- ### C8: usage events -/

lemma filter_usage_map (us : List (String × LMUsage)) :
    (us.map fun mu => usageEvent mu.1 mu.2).filter (fun e => e.kind == "usage")
      = us.map fun mu => usageEvent mu.1 mu.2 := by
  rw [List.filter_eq_self]
  intro e hmem
  rcases List.mem_map.mp hmem with ⟨mu, _, rfl⟩
  rfl

/-- C8 (amended): one analysis call emits the progress event followed by
one usage event per model of the backend's usage report — so possibly
more than one — all contiguous at the end of the sequence, and none at
all when the backend reports no usage. -/
theorem call_agent_usage_events (usages : List (String × LMUsage)) :
    call_agent_events usages
      = ⟨.str "Calling RCAPredict", "progress"⟩ :: usages.map (fun mu => usageEvent mu.1 mu.2)
  ∧ ((call_agent_events usages).filter fun e => e.kind == "usage").length = usages.length
  ∧ (usages = [] → (call_agent_events usages).filter (fun e => e.kind == "usage") = [])
  ∧ List.IsSuffix ((call_agent_events usages).filter fun e => e.kind == "usage")
      (call_agent_events usages) := by
  have h1 : call_agent_events usages
      = ⟨.str "Calling RCAPredict", "progress"⟩
        :: usages.map (fun mu => usageEvent mu.1 mu.2) := by
    unfold call_agent_events emit_dspy_usage
    cases usages <;> simp
  have h2 : (call_agent_events usages).filter (fun e => e.kind == "usage")
      = usages.map (fun mu => usageEvent mu.1 mu.2) := by
    rw [h1]
    rw [List.filter_cons]
    rw [if_neg (by decide)]
    exact filter_usage_map usages
  refine ⟨h1, ?_, ?_, ?_⟩
  · rw [h2, List.length_map]
  · intro h0
    subst h0
    rw [h2]
    rfl
  · rw [h2, h1]
    exact ⟨[⟨.str "Calling RCAPredict", "progress"⟩], rfl⟩

/-- C8 counterexample: a usage report naming two models yields two usage
events in one analysis call, refuting "at most once". -/
theorem usage_event_multiplicity_counterexample :
    ((call_agent_events usages2).filter fun e => e.kind == "usage").length = 2 := rfl

/-- C8 witness for the amended statement's implication. -/
theorem call_agent_usage_events_witness :
    (call_agent_events []).filter (fun e => e.kind == "usage") = [] :=
  (call_agent_usage_events []).2.2.1 rfl

/-- C1 witness: the sorting invariants instantiated at a concrete raw
report with a timestamp tie between the two logfiles. -/
theorem json_to_report_sorted_witness :
    List.Pairwise lfR repEx.logfiles
  ∧ (∀ lf ∈ repEx.logfiles, List.Pairwise errR lf.errors)
  ∧ ∀ mid, read_logfiles jEx = some mid →
      (∀ a b : LogFile, lfKey a = lfKey b → List.Sublist [a, b] (mid.map sortErrors) →
        List.Sublist [a, b] repEx.logfiles)
      ∧ (∀ lf ∈ mid, ∀ a b : Error, errKey a = errKey b → List.Sublist [a, b] lf.errors →
          List.Sublist [a, b] (sortErrors lf).errors) :=
  json_to_report_sorted jEx repEx (by decide)

/-- C10 witness: count preservation instantiated at the same concrete
raw report. -/
theorem json_to_report_counts_witness :
    ∃ lrs mid,
      (jget jEx "log_reports").bind asIterable = some lrs
    ∧ mapOption read_logfile lrs = some mid
    ∧ List.Forall₂ (fun lr lf => read_logfile lr = some lf) lrs mid
    ∧ repEx.logfiles.length = lrs.length
    ∧ List.Perm repEx.logfiles (mid.map sortErrors)
    ∧ (∀ lf ∈ mid, (sortErrors lf).source = lf.source
        ∧ List.Perm (sortErrors lf).errors lf.errors)
    ∧ List.Forall₂ (fun lr lf => ∃ ans, (jget lr "anomalies").bind asIterable = some ans
        ∧ List.Forall₂ (fun an e => read_error an = some e) ans lf.errors) lrs mid :=
  json_to_report_counts jEx repEx (by decide)

/-- C2 witness: the acceptance characterization evaluated at an accepted
and at a rejected concrete input. -/
theorem json_to_report_accepts_witness :
    (json_to_report jEx).isSome = acceptCond jEx
  ∧ (json_to_report c2bad).isSome = acceptCond c2bad :=
  ⟨json_to_report_accepts jEx, json_to_report_accepts c2bad⟩

/-- C4 witness: the empty report renders as the empty string. -/
theorem report_to_prompt_spec_witness : report_to_prompt ⟨"tox", []⟩ = "" :=
  report_to_prompt_spec.2.1 "tox"

/-- C9 witness: the lookup instantiated at a concrete report and
source. -/
theorem read_errors_total_witness :
    (∃ lf ∈ repEx.logfiles, lf.source = "zuul/a.log"
      ∧ read_errors repEx "zuul/a.log" = lf.errors)
  ∨ ((∀ lf ∈ repEx.logfiles, lf.source ≠ "zuul/a.log")
      ∧ read_errors repEx "zuul/a.log" = []) :=
  read_errors_total repEx "zuul/a.log"
